import Mathlib

/-!
Verification of the butido build orchestrator core against its specification.

The definitions below are a shallow embedding of the Rust sources:

* src/orchestrator/orchestrator.rs : the job-graph executor (JobTask::run,
  Orchestrator::run_tree),
* src/endpoint/scheduler.rs : endpoint selection (EndpointScheduler::select_free_endpoint),
  job supervision (JobHandle::run) and the log receiver (LogReceiver::join),
* src/db/find_artifacts.rs : the artifact-reuse query (environment filter and
  store resolution),
* src/source/mod.rs : the source cache (SourceEntry::verify_hash).

Rust Strings become Lean String, UUIDs become Nat, machine-level effects
(channels, file IO, the database) become explicit data: a channel is the list
of messages received on it in arrival order, the filesystem is a lookup
function, a database write is a value recorded in the result.  Fallible Rust
functions returning anyhow Result become Except String.  Nondeterministic
completion order of concurrently polled futures is an explicit input list in
completion order.
-/

namespace Butido

/-! ## Source cache: SourceEntry::verify_hash (src/source/mod.rs, lines 55 to 69) -/

/-- Modelled from the spec: Checksum::matches_hash_of is not under src (only its
caller SourceEntry::verify_hash is).  Per section 4.6 of the spec it compares the
digest of the file bytes, computed with the declared hash algorithm, against the
declared digest.  The digest function is kept abstract as a parameter. -/
def matches_hash_of (digest : List Nat → String) (declared : String) (buf : List Nat) :
    Except String Bool :=
  Except.ok (digest buf == declared)

/-- SourceEntry::verify_hash: open the source file (the question mark operator
propagates an open or read failure), read it fully, then compare hashes.  The
filesystem is modelled as a partial map from path to file bytes; a missing or
unreadable file is a lookup failure. -/
def verify_hash (fs : String → Option (List Nat)) (digest : List Nat → String)
    (declared : String) (package_source_path : String) : Except String Bool :=
  match fs package_source_path with
  | none => Except.error ("could not open " ++ package_source_path)
  | some buf => matches_hash_of digest declared buf

/-! ## Log file path and open mode (src/endpoint/scheduler.rs, lines 182 to 195) -/

/-- Models Rust PathBuf::join for a nonempty relative component: the component is
appended as a new path segment after a separator. -/
def pathbuf_join (base component : String) : String :=
  base ++ "/" ++ component

/-- The log file path computed by LogReceiver::join, line 184 of scheduler.rs:
log_dir.join(job_id.to_string()).join(".log"). -/
def logfile_path (log_dir job_id : String) : String :=
  pathbuf_join (pathbuf_join log_dir job_id) ".log"

/-- The OpenOptions flags used for the log file, lines 185 to 188 of scheduler.rs. -/
structure LogOpenOptions where
  create : Bool
  create_new : Bool
  write : Bool
deriving DecidableEq

/-- LogReceiver::join opens the log file with create, create_new and write set. -/
def logfile_open_options : LogOpenOptions :=
  { create := true, create_new := true, write := true }

/-! ## Log receiver (src/endpoint/scheduler.rs, lines 178 to 253)

LogItem and its display method live in src/log, which is not under src here;
the rendering is kept abstract as a total function disp.  The variants are the
ones matched by LogReceiver::join. -/

inductive LogItem where
| line (s : String)
| progress (u : Nat)
| currentPhase (s : String)
| state (r : Except String String)

/-- The success-flag update of the match in the while loop of
LogReceiver::join: a State Ok item sets it to true, a State Err item to false,
every other variant leaves it unchanged. -/
def update_success (item : LogItem) (success : Option Bool) : Option Bool :=
  match item with
  | LogItem.state (Except.ok _) => some true
  | LogItem.state (Except.error _) => some false
  | _ => success

/-- One pass of the while loop of LogReceiver::join: each received item is first
written to the log file (rendered text then a newline, two write calls), then the
success flag is updated per variant, then the item is pushed onto the
accumulator.  The file is modelled as the list of written chunks in order. -/
def log_receiver_loop (disp : LogItem → String) :
    List LogItem → List LogItem → List String → Option Bool →
    List LogItem × List String × Option Bool
| [], accu, chunks, success => (accu, chunks, success)
| item :: rest, accu, chunks, success =>
  log_receiver_loop disp rest (accu ++ [item]) (chunks ++ [disp item, "\n"])
    (update_success item success)

/-- Concatenation of the chunks written to the log file, in write order. -/
def concat_chunks : List String → String
| [] => ""
| c :: rest => c ++ concat_chunks rest

/-- LogReceiver::join: drain the stream, then return the accumulated items
rendered and joined with newlines.  Result components: the returned log string,
the final log file content, and the final success flag. -/
def log_receiver_join (disp : LogItem → String) (items : List LogItem) :
    String × String × Option Bool :=
  let r := log_receiver_loop disp items [] [] none
  (String.intercalate "\n" (r.1.map disp), concat_chunks r.2.1, r.2.2)

/-! ## Job handle (src/endpoint/scheduler.rs, lines 133 to 166)

JobHandle::run joins the container run with the log receiver, then checks the
log receiver result first, then the container result, and only then inserts the
Job row (which carries the accumulated log) together with its artifacts.  The
two join results are inputs here; the Job row written to the database is
returned explicitly. -/

/-- The ledger Job row fields relevant here (dbmodels::Job::create arguments). -/
structure JobRow where
  log : String
  container_hash : String
  script : String
deriving DecidableEq

/-- JobHandle::run after the tokio join: logres is the log receiver result, res
is the container run result carrying (artifact paths, container hash, rendered
script).  Returns the overall result and the Job row written, if any. -/
def job_handle_run (logres : Except String String)
    (res : Except String (List String × String × String)) :
    Except String (List String) × Option JobRow :=
  match logres with
  | Except.error e => (Except.error e, none)
  | Except.ok log =>
    match res with
    | Except.error e => (Except.error e, none)
    | Except.ok (paths, container_hash, script) =>
      (Except.ok paths, some { log := log, container_hash := container_hash, script := script })

/-! ## Artifact-reuse query: environment filter (src/db/find_artifacts.rs, lines 165 to 198) -/

/-- The environment filter applied to each candidate job loaded from the ledger:
when the package declares an environment, every (name, value) pair of the
historical job environment must occur in the chain of the declared package
environment and the additional environment overlay; when the package declares
no environment (None), the filter is skipped and the candidate is kept. -/
def job_env_filter (pkg_env : Option (List (String × String)))
    (additional_env : List (String × String))
    (job_env : List (String × String)) : Bool :=
  match pkg_env with
  | some pe =>
    job_env.all fun kv =>
      (pe ++ additional_env).any fun kv2 => kv.1 == kv2.1 && kv.2 == kv2.2
  | none => true

/-- Follows the words of the spec (section 4.2): a candidate survives iff the
historical job environment is a subset of the union of the package-declared
environment and the extra overlay, a missing declaration counting as the empty
environment.  Stated for comparison with job_env_filter. -/
def spec_env_subset (pkg_env : Option (List (String × String)))
    (additional_env : List (String × String))
    (job_env : List (String × String)) : Bool :=
  job_env.all fun kv =>
    ((pkg_env.getD []) ++ additional_env).any fun kv2 => kv.1 == kv2.1 && kv.2 == kv2.2

/-! ## Artifact-reuse query: store resolution (src/db/find_artifacts.rs, lines 207 to 233) -/

/-- A filestore: a root directory and the artifact paths indexed under it.
Modelled from the spec (section 4.5): FileStoreImpl itself is not under src;
get answers membership of a path in the index. -/
structure StoreModel where
  root : String
  files : List String
deriving DecidableEq

/-- FileStoreImpl::get: membership of the artifact path in the store index. -/
def store_get (s : StoreModel) (p : String) : Option String :=
  if p ∈ s.files then some p else none

/-- StoreRoot::join for an indexed (hence valid, relative) artifact path:
the full artifact path under the store root.  Modelled from the spec
(section 4.5). -/
def store_root_join (s : StoreModel) (p : String) : String :=
  s.root ++ "/" ++ p

/-- The release-store loop of find_artifacts, lines 223 to 231: the first
release store whose index contains the path wins; a row whose file is gone from
every store yields none (silently skipped). -/
def resolve_in_releases : List StoreModel → String → Option String
| [], _ => none
| s :: rest, p =>
  match store_get s p with
  | some art => some (store_root_join s art)
  | none => resolve_in_releases rest p

/-- Store resolution for one surviving artifact path, lines 207 to 232 of
find_artifacts.rs: the staging store (when present) is consulted first and its
hit is returned immediately; only otherwise are the release stores consulted in
declared order. -/
def resolve_artifact_path (staging_store : Option StoreModel)
    (release_stores : List StoreModel) (p : String) : Option String :=
  match staging_store with
  | some staging =>
    match store_get staging p with
    | some art => some (store_root_join staging art)
    | none => resolve_in_releases release_stores p
  | none => resolve_in_releases release_stores p

/-! ## Endpoint scheduler: selection (src/endpoint/scheduler.rs, lines 91 to 112)

EndpointScheduler::select_free_endpoint polls every endpoint for its running
container count through a FuturesUnordered, whose results complete in an order
unrelated to the declaration order of the endpoints.  The input here is the
list of poll results in completion order: each is either an error or a pair of
(running container count, endpoint identifier). -/

/-- Iterator collect into Result of Vec: the first error in order aborts the
collection, mirroring unordered.collect at line 101 of scheduler.rs. -/
def collect_results : List (Except String (Nat × Nat)) → Except String (List (Nat × Nat))
| [] => Except.ok []
| Except.error e :: _ => Except.error e
| Except.ok a :: rest => (collect_results rest).map (a :: ·)

/-- The load comparison used by sorted_by at line 105 of scheduler.rs: ascending
on the running container count. -/
def load_le (a b : Nat × Nat) : Prop := a.1 ≤ b.1

instance : DecidableRel load_le := fun a b => inferInstanceAs (Decidable (a.1 ≤ b.1))

/-- sorted_by(count ascending).next(): stable sort of the completed load reports,
then the first element.  itertools sorted_by is a stable sort, as is insertion
sort. -/
def select_from_reports (loads : List (Nat × Nat)) : Option (Nat × Nat) :=
  (loads.insertionSort load_le).head?

/-- The outcome of one iteration of the selection loop of
select_free_endpoint. -/
inductive RoundOutcome where
| selected (p : Nat × Nat)
| retry
| fatal (e : String)
deriving DecidableEq

/-- One iteration of the loop in select_free_endpoint, lines 92 to 111 of
scheduler.rs: the question mark operator on the collected poll results turns
any poll failure into an error returned from scheduling; if a least-loaded
endpoint exists it is returned; only an empty report list (no endpoints at
all) falls through to the next loop iteration, and no backoff is performed. -/
def select_free_endpoint_round (reports : List (Except String (Nat × Nat))) : RoundOutcome :=
  match collect_results reports with
  | Except.error e => RoundOutcome.fatal e
  | Except.ok loads =>
    match select_from_reports loads with
    | some p => RoundOutcome.selected p
    | none => RoundOutcome.retry

lemma collect_results_map_ok (loads : List (Nat × Nat)) :
    collect_results (loads.map Except.ok) = Except.ok loads := by
  induction loads with
  | nil => rfl
  | cons a rest ih => simp [collect_results, ih, Except.map]

/-- The head of the insertion sort by load is a minimal element, and it is the
first minimal element of the input: every element strictly before its
occurrence has a strictly larger load. -/
lemma head_insertionSort_first_min :
    ∀ (l : List (Nat × Nat)) (p : Nat × Nat),
      (l.insertionSort load_le).head? = some p →
      ∃ pre post, l = pre ++ p :: post ∧ (∀ q ∈ l, p.1 ≤ q.1) ∧ (∀ q ∈ pre, p.1 < q.1) := by
  intro l
  induction l with
  | nil => intro p hp; simp [List.insertionSort] at hp
  | cons a l ih =>
    intro p hp
    rw [List.insertionSort] at hp
    cases hsort : l.insertionSort load_le with
    | nil =>
      have hl : l = [] := List.eq_nil_of_length_eq_zero (by
        have := (List.perm_insertionSort load_le l).length_eq
        rw [hsort] at this
        simpa using this.symm)
      subst hl
      rw [hsort] at hp
      simp [List.orderedInsert] at hp
      subst hp
      exact ⟨[], [], rfl, by simp [load_le], by simp⟩
    | cons b m =>
      rw [hsort] at hp
      have hb := ih b (by rw [hsort]; rfl)
      obtain ⟨pre', post', hsplit, hmin, hpre⟩ := hb
      rw [List.orderedInsert] at hp
      by_cases hab : load_le a b
      · rw [if_pos hab] at hp
        have hpa : p = a := by simpa using hp.symm
        subst hpa
        refine ⟨[], l, rfl, ?_, by simp⟩
        intro q hq
        rcases List.mem_cons.mp hq with h | h
        · subst h; exact Nat.le_refl _
        · exact Nat.le_trans hab (hmin q h)
      · rw [if_neg hab] at hp
        have hpb : p = b := by simpa using hp.symm
        subst hpb
        have hba : p.1 < a.1 := Nat.lt_of_not_le hab
        refine ⟨a :: pre', post', ?_, ?_, ?_⟩
        · rw [hsplit]; rfl
        · intro q hq
          rcases List.mem_cons.mp hq with h | h
          · subst h; exact Nat.le_of_lt hba
          · exact hmin q h
        · intro q hq
          rcases List.mem_cons.mp hq with h | h
          · subst h; exact hba
          · exact hpre q h

/-! ## Orchestrator (src/orchestrator/orchestrator.rs)

One JobTask per job-graph node.  A task receives JobResult messages from the
tasks of its dependencies on its inbox channel; the channel is modelled by the
list of messages in arrival order, the end of the list being the closed
channel.  The build of the RunnableJob together with schedule_job (both
propagate their errors with the question mark operator, returning from the task
without sending) is the oracle prep; the scheduled run of the job on its
endpoint is the oracle run_result, either the artifacts the container produced
or the error sent to the parent. -/

/-- JobResult, line 97 of orchestrator.rs: either (job uuid, artifacts) or a
list of (job uuid, error) pairs. -/
inductive JobMsg where
| ok (uuid : Nat) (artifacts : List String)
| err (errors : List (Nat × String))
deriving DecidableEq

/-- What one JobTask::run did: the message sent to its outbox (the code sends
at most one), whether the RunnableJob build and submission step was reached,
and the task return value. -/
instance exceptDecEq {ε α : Type} [DecidableEq ε] [DecidableEq α] :
    DecidableEq (Except ε α)
| Except.ok a, Except.ok b =>
  if h : a = b then isTrue (by rw [h]) else isFalse (by intro hc; cases hc; exact h rfl)
| Except.ok _, Except.error _ => isFalse (by intro hc; cases hc)
| Except.error _, Except.ok _ => isFalse (by intro hc; cases hc)
| Except.error e, Except.error e' =>
  if h : e = e' then isTrue (by rw [h]) else isFalse (by intro hc; cases hc; exact h rfl)

structure TaskOutcome where
  sent : Option JobMsg
  built : Bool
  result : Except String Unit
deriving DecidableEq

/-- The helper closure all_dependencies_are_in, lines 283 to 287 of
orchestrator.rs. -/
def all_dependencies_are_in (dependency_uuids : List Nat)
    (list : List (Nat × List String)) : Bool :=
  dependency_uuids.all fun dependency_uuid =>
    list.any fun tpl => tpl.1 == dependency_uuid

/-- Receiving one message, lines 297 to 331 of orchestrator.rs: an ok result is
pushed onto received_dependencies, an error list is appended to
received_errors. -/
def receive_message (msg : JobMsg) (received_dependencies : List (Nat × List String))
    (received_errors : List (Nat × String)) :
    List (Nat × List String) × List (Nat × String) :=
  match msg with
  | JobMsg.ok uuid artifacts => (received_dependencies ++ [(uuid, artifacts)], received_errors)
  | JobMsg.err errors => (received_dependencies, received_errors ++ errors)

/-- Lines 344 to 391 of orchestrator.rs, after the receive loop: flatten the
received dependency artifacts, build and submit the job (prep; on failure the
task returns the error without sending), then send the own uuid with the own
artifacts extended by all received dependency artifacts on success, or the own
uuid paired with the run error on failure. -/
def finish_job (uuid : Nat) (prep : Except String Unit)
    (run_result : Except String (List String))
    (received_dependencies : List (Nat × List String)) : TaskOutcome :=
  let dependency_artifacts := (received_dependencies.map Prod.snd).flatten
  match prep with
  | Except.error e => { sent := none, built := false, result := Except.error e }
  | Except.ok _ =>
    match run_result with
    | Except.error e =>
      { sent := some (JobMsg.err [(uuid, e)]), built := true, result := Except.ok () }
    | Except.ok artifacts =>
      { sent := some (JobMsg.ok uuid (artifacts ++ dependency_artifacts)), built := true,
        result := Except.ok () }

/-- The receive loop of JobTask::run, lines 290 to 342 of orchestrator.rs.
While some declared dependency has not reported: take the next message (a
closed channel with missing dependencies makes the task fail, with all
dependencies present it breaks to the finish step); after every receive, a
non-empty received error list is forwarded to the outbox as is and the task
returns Ok without building or submitting anything. -/
def run_task_loop (uuid : Nat) (dependencies : List Nat) (prep : Except String Unit)
    (run_result : Except String (List String)) :
    List JobMsg → List (Nat × List String) → List (Nat × String) → TaskOutcome
| inbox, received_dependencies, received_errors =>
  if all_dependencies_are_in dependencies received_dependencies then
    finish_job uuid prep run_result received_dependencies
  else
    match inbox with
    | [] =>
      let missing_deps := dependencies.filter fun d =>
        !((received_dependencies.map Prod.fst).contains d)
      if missing_deps.isEmpty then
        finish_job uuid prep run_result received_dependencies
      else
        { sent := none, built := false,
          result := Except.error "Childs finished, but dependencies still missing" }
    | msg :: rest =>
      let st := receive_message msg received_dependencies received_errors
      if st.2.isEmpty then
        run_task_loop uuid dependencies prep run_result rest st.1 st.2
      else
        { sent := some (JobMsg.err st.2), built := false, result := Except.ok () }

/-- JobTask::run on a fresh task: empty received dependency and error lists. -/
def run_task (uuid : Nat) (dependencies : List Nat) (prep : Except String Unit)
    (run_result : Except String (List String)) (inbox : List JobMsg) : TaskOutcome :=
  run_task_loop uuid dependencies prep run_result inbox [] []

/-! The job graph as wired by Orchestrator::run_tree: every non-root node sends
to the inbox of its unique parent, so a run is a tree of tasks.  Each node
carries its uuid, the prep oracle (RunnableJob build plus schedule_job) and the
run oracle (the endpoint run of the job). -/

mutual
inductive JTree where
| node (uuid : Nat) (prep : Except String Unit) (run_result : Except String (List String))
    (children : JForest)
inductive JForest where
| nil
| cons (t : JTree) (f : JForest)
end

/-- The uuid of the node itself. -/
def rootUuid : JTree → Nat
| JTree.node uuid _ _ _ => uuid

/-- The declared dependencies of a node: the uuids of its children. -/
def forestUuids : JForest → List Nat
| JForest.nil => []
| JForest.cons t f => rootUuid t :: forestUuids f

mutual
/-- Run the task of one node: its inbox holds, in order, the messages sent by
its children (a child that sent nothing contributes nothing). -/
def runNode : JTree → TaskOutcome
| JTree.node uuid prep run_result children =>
  run_task uuid (forestUuids children) prep run_result (runForest children)
/-- The messages arriving on the inbox of the parent of this forest. -/
def runForest : JForest → List JobMsg
| JForest.nil => []
| JForest.cons t f =>
  match (runNode t).sent with
  | some msg => msg :: runForest f
  | none => runForest f
end

mutual
/-- All task return values in the tree are Ok: the collect over the
FuturesUnordered of the task futures at line 208 of orchestrator.rs succeeds. -/
def allTaskResultsOk : JTree → Bool
| JTree.node uuid prep run_result children =>
  (match (runNode (JTree.node uuid prep run_result children)).result with
   | Except.ok _ => true
   | Except.error _ => false) && allTaskResultsOkF children
def allTaskResultsOkF : JForest → Bool
| JForest.nil => true
| JForest.cons t f => allTaskResultsOk t && allTaskResultsOkF f
end

/-- Orchestrator::run_tree, lines 210 to 219 of orchestrator.rs: the collected
task results are checked first with the question mark operator (modelled as a
single failure marker), then the one message received on the root channel is
inspected: an ok message yields its artifacts and no errors, an error message
yields no artifacts and its error list, no message at all is fatal. -/
def run_tree (t : JTree) : Except String (List String × List (Nat × String)) :=
  if allTaskResultsOk t then
    match (runNode t).sent with
    | none => Except.error "No result received..."
    | some (JobMsg.ok _ artifacts) => Except.ok (artifacts, [])
    | some (JobMsg.err errors) => Except.ok ([], errors)
  else
    Except.error "a task future returned an error"

/-! Auxiliary tree predicates and data used to state the claims. -/

mutual
/-- Every node in the tree has a successful prep and a successful run. -/
def allOkT : JTree → Bool
| JTree.node _ prep run_result children =>
  (match prep with | Except.ok _ => true | Except.error _ => false) &&
  (match run_result with | Except.ok _ => true | Except.error _ => false) &&
  allOkF children
def allOkF : JForest → Bool
| JForest.nil => true
| JForest.cons t f => allOkT t && allOkF f
end

mutual
/-- The sibling uuids at every node are pairwise distinct (every node of the
job graph has a fresh v4 uuid). -/
def wfT : JTree → Bool
| JTree.node _ _ _ children => decide (forestUuids children).Nodup && wfF children
def wfF : JForest → Bool
| JForest.nil => true
| JForest.cons t f => wfT t && wfF f
end

/-- The artifacts the node itself produced (its run oracle result; none on
failure). -/
def ownArtifacts : JTree → List String
| JTree.node _ _ run_result _ =>
  match run_result with
  | Except.ok artifacts => artifacts
  | Except.error _ => []

mutual
/-- All artifacts produced in the closure of a node, the own artifacts of each
node before those of its dependency subtrees. -/
def producedClosure : JTree → List String
| JTree.node uuid prep run_result children =>
  ownArtifacts (JTree.node uuid prep run_result children) ++ producedClosureF children
def producedClosureF : JForest → List String
| JForest.nil => []
| JForest.cons t f => producedClosure t ++ producedClosureF f
end

mutual
/-- Some node of the tree produced the artifact a. -/
def artProducedBy (a : String) : JTree → Bool
| JTree.node uuid prep run_result children =>
  decide (a ∈ ownArtifacts (JTree.node uuid prep run_result children)) ||
  artProducedByF a children
def artProducedByF (a : String) : JForest → Bool
| JForest.nil => false
| JForest.cons t f => artProducedBy a t || artProducedByF a f
end

/-- The (uuid, closure artifacts) pairs a parent receives from this forest of
children when every node succeeds. -/
def forestPairs : JForest → List (Nat × List String)
| JForest.nil => []
| JForest.cons t f => (rootUuid t, producedClosure t) :: forestPairs f

/-! The chain scenario S2 of the spec: C depends on B, B depends on A, all
three succeed, each producing one artifact. -/

/-- Node A: uuid 0, no dependencies, produces artA. -/
def chainA : JTree := JTree.node 0 (Except.ok ()) (Except.ok ["artA"]) JForest.nil

/-- Node B: uuid 1, depends on A, produces artB. -/
def chainB : JTree := JTree.node 1 (Except.ok ()) (Except.ok ["artB"]) (JForest.cons chainA JForest.nil)

/-- Node C (the root): uuid 2, depends on B, produces artC. -/
def chainC : JTree := JTree.node 2 (Except.ok ()) (Except.ok ["artC"]) (JForest.cons chainB JForest.nil)

/-! Unfolding equations (all definitional) for the recursive definitions
above, stated once so the proofs below can rewrite with them. -/

lemma run_task_loop_closed (uuid : Nat) (dependencies : List Nat) (prep : Except String Unit)
    (run_result : Except String (List String)) (received_dependencies : List (Nat × List String))
    (received_errors : List (Nat × String)) :
    run_task_loop uuid dependencies prep run_result [] received_dependencies received_errors =
      if all_dependencies_are_in dependencies received_dependencies then
        finish_job uuid prep run_result received_dependencies
      else
        if (dependencies.filter fun d =>
            !((received_dependencies.map Prod.fst).contains d)).isEmpty then
          finish_job uuid prep run_result received_dependencies
        else
          { sent := none, built := false,
            result := Except.error "Childs finished, but dependencies still missing" } := rfl

lemma run_task_loop_cons (uuid : Nat) (dependencies : List Nat) (prep : Except String Unit)
    (run_result : Except String (List String)) (msg : JobMsg) (rest : List JobMsg)
    (received_dependencies : List (Nat × List String))
    (received_errors : List (Nat × String)) :
    run_task_loop uuid dependencies prep run_result (msg :: rest)
        received_dependencies received_errors =
      if all_dependencies_are_in dependencies received_dependencies then
        finish_job uuid prep run_result received_dependencies
      else
        let st := receive_message msg received_dependencies received_errors
        if st.2.isEmpty then
          run_task_loop uuid dependencies prep run_result rest st.1 st.2
        else
          { sent := some (JobMsg.err st.2), built := false, result := Except.ok () } := rfl

lemma runNode_node (uuid : Nat) (prep : Except String Unit)
    (run_result : Except String (List String)) (children : JForest) :
    runNode (JTree.node uuid prep run_result children) =
      run_task uuid (forestUuids children) prep run_result (runForest children) := rfl

lemma runForest_cons (t : JTree) (f : JForest) :
    runForest (JForest.cons t f) =
      (match (runNode t).sent with
       | some msg => msg :: runForest f
       | none => runForest f) := rfl

lemma allTaskResultsOk_node (uuid : Nat) (prep : Except String Unit)
    (run_result : Except String (List String)) (children : JForest) :
    allTaskResultsOk (JTree.node uuid prep run_result children) =
      ((match (runNode (JTree.node uuid prep run_result children)).result with
        | Except.ok _ => true
        | Except.error _ => false) && allTaskResultsOkF children) := rfl

lemma allTaskResultsOkF_cons (t : JTree) (f : JForest) :
    allTaskResultsOkF (JForest.cons t f) = (allTaskResultsOk t && allTaskResultsOkF f) := rfl

lemma allOkT_node (uuid : Nat) (prep : Except String Unit)
    (run_result : Except String (List String)) (children : JForest) :
    allOkT (JTree.node uuid prep run_result children) =
      ((match prep with | Except.ok _ => true | Except.error _ => false) &&
       (match run_result with | Except.ok _ => true | Except.error _ => false) &&
       allOkF children) := rfl

lemma allOkF_cons (t : JTree) (f : JForest) :
    allOkF (JForest.cons t f) = (allOkT t && allOkF f) := rfl

lemma wfT_node (uuid : Nat) (prep : Except String Unit)
    (run_result : Except String (List String)) (children : JForest) :
    wfT (JTree.node uuid prep run_result children) =
      (decide (forestUuids children).Nodup && wfF children) := rfl

lemma wfF_cons (t : JTree) (f : JForest) :
    wfF (JForest.cons t f) = (wfT t && wfF f) := rfl

lemma producedClosure_node (uuid : Nat) (prep : Except String Unit)
    (run_result : Except String (List String)) (children : JForest) :
    producedClosure (JTree.node uuid prep run_result children) =
      ownArtifacts (JTree.node uuid prep run_result children) ++ producedClosureF children := rfl

lemma producedClosureF_nil : producedClosureF JForest.nil = [] := rfl

lemma producedClosureF_cons (t : JTree) (f : JForest) :
    producedClosureF (JForest.cons t f) = producedClosure t ++ producedClosureF f := rfl

lemma artProducedBy_node (a : String) (uuid : Nat) (prep : Except String Unit)
    (run_result : Except String (List String)) (children : JForest) :
    artProducedBy a (JTree.node uuid prep run_result children) =
      (decide (a ∈ ownArtifacts (JTree.node uuid prep run_result children)) ||
       artProducedByF a children) := rfl

lemma artProducedByF_nil (a : String) : artProducedByF a JForest.nil = false := rfl

lemma artProducedByF_cons (a : String) (t : JTree) (f : JForest) :
    artProducedByF a (JForest.cons t f) = (artProducedBy a t || artProducedByF a f) := rfl

/-! Helper lemmas about the receive loop and forests of successful tasks. -/

lemma all_dependencies_are_in_self (done : List (Nat × List String)) :
    all_dependencies_are_in (done.map Prod.fst) done = true := by
  simp only [all_dependencies_are_in, List.all_eq_true, List.any_eq_true]
  intro d hd
  obtain ⟨p, hp, rfl⟩ := List.mem_map.mp hd
  exact ⟨p, hp, by simp⟩

lemma all_dependencies_are_in_cons_false (done rest : List (Nat × List String))
    (p : Nat × List String) (hnodup : ((done ++ p :: rest).map Prod.fst).Nodup) :
    all_dependencies_are_in ((done ++ p :: rest).map Prod.fst) done = false := by
  have hnot : p.1 ∉ done.map Prod.fst := by
    rw [List.map_append] at hnodup
    have hdisj := (List.nodup_append.mp hnodup).2.2
    intro hmem
    exact (hdisj hmem) (by simp)
  simp only [all_dependencies_are_in]
  rw [List.all_eq_false]
  refine ⟨p.1, by simp, ?_⟩
  intro hany
  rw [List.any_eq_true] at hany
  obtain ⟨tpl, htpl, heq⟩ := hany
  exact hnot (beq_iff_eq.mp heq ▸ List.mem_map_of_mem Prod.fst htpl)

/-- When the inbox holds exactly one successful message per still-missing
dependency, in dependency order, the receive loop consumes them all and reaches
the finish step with the full received list. -/
lemma run_task_loop_all_ok (uuid : Nat) (prep : Except String Unit)
    (run_result : Except String (List String)) :
    ∀ (rest done : List (Nat × List String)),
      ((done ++ rest).map Prod.fst).Nodup →
      run_task_loop uuid ((done ++ rest).map Prod.fst) prep run_result
        (rest.map fun p => JobMsg.ok p.1 p.2) done [] =
      finish_job uuid prep run_result (done ++ rest) := by
  intro rest
  induction rest with
  | nil =>
    intro done _
    rw [List.map_nil, run_task_loop_closed, List.append_nil]
    simp [all_dependencies_are_in_self]
  | cons p rest' ih =>
    intro done hnodup
    rw [List.map_cons, run_task_loop_cons]
    rw [all_dependencies_are_in_cons_false done rest' p hnodup]
    show run_task_loop uuid ((done ++ p :: rest').map Prod.fst) prep run_result
      (rest'.map fun p => JobMsg.ok p.1 p.2) (done ++ [(p.1, p.2)]) [] = _
    have hre : done ++ p :: rest' = (done ++ [(p.1, p.2)]) ++ rest' := by simp
    rw [hre] at hnodup ⊢
    exact ih (done ++ [(p.1, p.2)]) hnodup

lemma forestUuids_eq_pairs (f : JForest) :
    forestUuids f = (forestPairs f).map Prod.fst :=
  @JForest.rec (fun _ => True)
    (fun f => forestUuids f = (forestPairs f).map Prod.fst)
    (fun _ _ _ _ _ => trivial)
    rfl
    (fun t f _ ihf => by simp [forestUuids, forestPairs, ihf])
    f

lemma producedClosureF_eq_pairs (f : JForest) :
    producedClosureF f = ((forestPairs f).map Prod.snd).flatten :=
  @JForest.rec (fun _ => True)
    (fun f => producedClosureF f = ((forestPairs f).map Prod.snd).flatten)
    (fun _ _ _ _ _ => trivial)
    rfl
    (fun t f _ ihf => by simp [producedClosureF, forestPairs, ihf])
    f

/-- Every task of a tree whose nodes all succeed, with distinct sibling uuids,
sends its own uuid with its own artifacts followed by all dependency closure
artifacts, and returns Ok. -/
lemma runNode_all_ok (t : JTree) (hok : allOkT t = true) (hwf : wfT t = true) :
    runNode t = { sent := some (JobMsg.ok (rootUuid t) (producedClosure t)),
                  built := true, result := Except.ok () } := by
  refine @JTree.rec
    (fun t => allOkT t = true → wfT t = true →
      runNode t = { sent := some (JobMsg.ok (rootUuid t) (producedClosure t)),
                    built := true, result := Except.ok () })
    (fun f => allOkF f = true → wfF f = true →
      runForest f = (forestPairs f).map fun p => JobMsg.ok p.1 p.2)
    ?_ ?_ ?_ t hok hwf
  · intro uuid prep run_result children ihf hokT hwfT
    rw [allOkT_node] at hokT
    simp only [Bool.and_eq_true] at hokT
    obtain ⟨⟨hprep, hrun⟩, hokF⟩ := hokT
    rw [wfT_node] at hwfT
    simp only [Bool.and_eq_true] at hwfT
    obtain ⟨hnodup, hwfF⟩ := hwfT
    have hnodup' : (forestUuids children).Nodup := of_decide_eq_true hnodup
    obtain ⟨u, rfl⟩ : ∃ u, prep = Except.ok u := by
      cases prep with
      | ok u => exact ⟨u, rfl⟩
      | error e => simp at hprep
    obtain ⟨arts, rfl⟩ : ∃ arts, run_result = Except.ok arts := by
      cases run_result with
      | ok a => exact ⟨a, rfl⟩
      | error e => simp at hrun
    rw [runNode_node, ihf hokF hwfF, run_task]
    rw [forestUuids_eq_pairs] at hnodup' ⊢
    have h := run_task_loop_all_ok uuid (Except.ok u) (Except.ok arts)
      (forestPairs children) [] (by simpa using hnodup')
    simp only [List.nil_append] at h
    rw [h]
    simp [finish_job, rootUuid, producedClosure_node, ownArtifacts, producedClosureF_eq_pairs]
  · intro _ _
    rfl
  · intro t f iht ihf hokF hwfF
    rw [allOkF_cons] at hokF
    simp only [Bool.and_eq_true] at hokF
    rw [wfF_cons] at hwfF
    simp only [Bool.and_eq_true] at hwfF
    rw [runForest_cons, iht hokF.1 hwfF.1, ihf hokF.2 hwfF.2]
    rfl

/-- Under the same assumptions every task future in the tree returns Ok, so the
collect over the task futures in run_tree succeeds. -/
lemma allTaskResultsOk_of_allOk (t : JTree) (hok : allOkT t = true) (hwf : wfT t = true) :
    allTaskResultsOk t = true := by
  refine @JTree.rec
    (fun t => allOkT t = true → wfT t = true → allTaskResultsOk t = true)
    (fun f => allOkF f = true → wfF f = true → allTaskResultsOkF f = true)
    ?_ ?_ ?_ t hok hwf
  · intro uuid prep run_result children ihf hokT hwfT
    have hres := runNode_all_ok _ hokT hwfT
    rw [allOkT_node] at hokT
    simp only [Bool.and_eq_true] at hokT
    rw [wfT_node] at hwfT
    simp only [Bool.and_eq_true] at hwfT
    rw [allTaskResultsOk_node, hres]
    simp [ihf hokT.2 hwfT.2]
  · intro _ _
    rfl
  · intro t f iht ihf hokF hwfF
    rw [allOkF_cons] at hokF
    simp only [Bool.and_eq_true] at hokF
    rw [wfF_cons] at hwfF
    simp only [Bool.and_eq_true] at hwfF
    rw [allTaskResultsOkF_cons, iht hokF.1 hwfF.1, ihf hokF.2 hwfF.2]
    rfl

lemma mem_producedClosure (t : JTree) (a : String) :
    a ∈ producedClosure t ↔ artProducedBy a t = true := by
  refine @JTree.rec
    (fun t => ∀ a : String, a ∈ producedClosure t ↔ artProducedBy a t = true)
    (fun f => ∀ a : String, a ∈ producedClosureF f ↔ artProducedByF a f = true)
    ?_ ?_ ?_ t a
  · intro uuid prep run_result children ihf a
    rw [producedClosure_node, artProducedBy_node]
    simp [List.mem_append, ihf a]
  · intro a
    simp [producedClosureF_nil, artProducedByF_nil]
  · intro t f iht ihf a
    rw [producedClosureF_cons, artProducedByF_cons]
    simp [List.mem_append, iht a, ihf a]

/-! Further helper lemmas used by the claim theorems. -/

lemma bool_eq_of_iff {a b : Bool} (h : a = true ↔ b = true) : a = b := by
  cases a <;> cases b <;> simp_all

lemma job_env_filter_some_iff (pe add je : List (String × String)) :
    job_env_filter (some pe) add je = true ↔ ∀ kv ∈ je, kv ∈ pe ++ add := by
  simp only [job_env_filter, List.all_eq_true, List.any_eq_true, Bool.and_eq_true, beq_iff_eq]
  constructor
  · intro h kv hkv
    obtain ⟨kv2, hkv2, h1, h2⟩ := h kv hkv
    have : kv = kv2 := Prod.ext h1 h2
    rw [this]
    exact hkv2
  · intro h kv hkv
    exact ⟨kv, h kv hkv, rfl, rfl⟩

lemma select_round_error_head (e : String) (rest : List (Except String (Nat × Nat))) :
    select_free_endpoint_round (Except.error e :: rest) = RoundOutcome.fatal e := rfl

lemma select_from_reports_cons_some (a : Nat × Nat) (loads : List (Nat × Nat)) :
    ∃ p, select_from_reports (a :: loads) = some p := by
  cases hs : (a :: loads).insertionSort load_le with
  | nil =>
    exfalso
    have := (List.perm_insertionSort load_le (a :: loads)).length_eq
    rw [hs] at this
    simp at this
  | cons b m =>
    exact ⟨b, by rw [select_from_reports, hs]; rfl⟩

lemma log_receiver_loop_spec (disp : LogItem → String) :
    ∀ (items accu : List LogItem) (chunks : List String) (s : Option Bool),
      (log_receiver_loop disp items accu chunks s).1 = accu ++ items ∧
      (log_receiver_loop disp items accu chunks s).2.1 =
        chunks ++ items.flatMap fun i => [disp i, "\n"] := by
  intro items
  induction items with
  | nil =>
    intro accu chunks s
    simp [log_receiver_loop]
  | cons i rest ih =>
    intro accu chunks s
    rw [log_receiver_loop]
    constructor
    · rw [(ih _ _ _).1]
      simp
    · rw [(ih _ _ _).2]
      simp

lemma concat_chunks_flatMap (disp : LogItem → String) (items : List LogItem) :
    concat_chunks (items.flatMap fun i => [disp i, "\n"]) =
      concat_chunks (items.map fun i => disp i ++ "\n") := by
  induction items with
  | nil => rfl
  | cons i rest ih =>
    rw [List.flatMap_cons, List.map_cons]
    rw [show ([disp i, "\n"] ++ rest.flatMap fun i => [disp i, "\n"]) =
        disp i :: "\n" :: (rest.flatMap fun i => [disp i, "\n"]) from rfl]
    rw [concat_chunks, concat_chunks, concat_chunks, ih, String.append_assoc]

/-! ## The claims -/

/-- Claim C1, counterexample: in the chain where C depends on B depends on A
and all three succeed (scenario S2), the root receives the three artifacts in
the order [artC, artB, artA], because every task sends its own artifacts
followed by the forwarded dependency artifacts; the claimed order
[artA, artB, artC] is not the one produced. -/
theorem C1_chain_order_counterexample :
    run_tree chainC = Except.ok (["artC", "artB", "artA"], []) ∧
    run_tree chainC ≠ Except.ok (["artA", "artB", "artC"], []) := by
  decide

/-- Claim C1, amended: for every successful orchestrator run over a job tree
with distinct sibling uuids, the root receives exactly the concatenation of the
artifacts produced by every node in the closure (own artifacts before
dependency artifacts), so as a set the root artifacts equal the union over all
nodes; for the chain where C depends on B depends on A the root list is
[artC, artB, artA]. -/
theorem C1_root_receives_closure :
    (∀ t : JTree, allOkT t = true → wfT t = true →
      run_tree t = Except.ok (producedClosure t, []) ∧
      (∀ a : String, a ∈ producedClosure t ↔ artProducedBy a t = true)) ∧
    run_tree chainC = Except.ok (["artC", "artB", "artA"], []) := by
  constructor
  · intro t hok hwf
    refine ⟨?_, fun a => mem_producedClosure t a⟩
    simp [run_tree, allTaskResultsOk_of_allOk t hok hwf, runNode_all_ok t hok hwf]
  · decide

/-- Claim C1, witness: the amended theorem applied to the two-node chain. -/
theorem C1_root_receives_closure_witness :
    run_tree chainB = Except.ok (["artB", "artA"], []) :=
  (C1_root_receives_closure.1 chainB (by decide) (by decide)).1

/-- Claim C2: whenever a job task is still waiting for dependencies and, after
receiving one more message from its inbox, its local received error list is
non-empty, it sends exactly that error list to its outbox, returns Ok, and
never reaches the RunnableJob build and submission step. -/
theorem C2_error_forwarding (uuid : Nat) (dependencies : List Nat)
    (prep : Except String Unit) (run_result : Except String (List String))
    (msg : JobMsg) (rest : List JobMsg)
    (received_dependencies : List (Nat × List String))
    (received_errors : List (Nat × String))
    (hactive : all_dependencies_are_in dependencies received_dependencies = false)
    (herr : (receive_message msg received_dependencies received_errors).2 ≠ []) :
    run_task_loop uuid dependencies prep run_result (msg :: rest)
        received_dependencies received_errors =
      { sent := some (JobMsg.err (receive_message msg received_dependencies received_errors).2),
        built := false, result := Except.ok () } := by
  rw [run_task_loop_cons, hactive]
  simp only [Bool.false_eq_true, if_false]
  cases h : (receive_message msg received_dependencies received_errors).2 with
  | nil => exact absurd h herr
  | cons e es => simp [h]

/-- Claim C2, witness: a task with the single dependency 7 receives the error
list of its failed subtree and forwards it unchanged, returning Ok without
building anything. -/
theorem C2_error_forwarding_witness :
    run_task_loop 0 [7] (Except.ok ()) (Except.ok []) [JobMsg.err [(7, "E")]] [] [] =
      { sent := some (JobMsg.err [(7, "E")]), built := false, result := Except.ok () } :=
  C2_error_forwarding 0 [7] (Except.ok ()) (Except.ok []) (JobMsg.err [(7, "E")]) [] [] []
    (by decide) (by decide)

/-- Claim C3, counterexample: for a package that declares no environment at
all, the code skips the environment filter, so with an empty overlay a job
recorded with the non-empty environment A=1 survives, although the subset
condition of the claim rejects it (its pair does not occur in the empty
candidate environment). -/
theorem C3_env_filter_counterexample :
    job_env_filter none [] [("A", "1")] = true ∧
    spec_env_subset none [] [("A", "1")] = false := by
  decide

/-- Claim C3, amended: when the package declares an environment, a previously
recorded job survives the filter iff every (name, value) pair of its
environment occurs in the declared environment followed by the overlay,
irrespective of the order of either environment list; when the package
declares no environment the filter is skipped and every recorded job
survives. -/
theorem C3_env_filter_subset :
    (∀ pe add je : List (String × String),
      (job_env_filter (some pe) add je = true ↔ ∀ kv ∈ je, kv ∈ pe ++ add)) ∧
    (∀ add je : List (String × String), job_env_filter none add je = true) ∧
    (∀ pe pe' add add' je : List (String × String), pe.Perm pe' → add.Perm add' →
      job_env_filter (some pe) add je = job_env_filter (some pe') add' je) := by
  refine ⟨job_env_filter_some_iff, fun _ _ => rfl, ?_⟩
  intro pe pe' add add' je hpe hadd
  refine bool_eq_of_iff ?_
  rw [job_env_filter_some_iff, job_env_filter_some_iff]
  exact forall₂_congr fun kv _ => by rw [(hpe.append hadd).mem_iff]

/-- Claim C3, witness: scenario S4, a recorded job with environment A=1 is
reused under the superset overlay A=1, B=2. -/
theorem C3_env_filter_subset_witness :
    job_env_filter (some [("A", "1")]) [("B", "2")] [("A", "1")] = true :=
  (C3_env_filter_subset.1 [("A", "1")] [("B", "2")] [("A", "1")]).mpr (by decide)

/-- Claim C4: the claim (and the doc comment of find_artifacts) says the
released artifact path is preferred, but the resolution code consults the
staging store first and returns its hit immediately; for an artifact present
in both stores the staged full path is returned, not the released one. -/
theorem C4_staging_preferred_over_release :
    resolve_artifact_path (some { root := "/staging", files := ["a.tar"] })
        [{ root := "/release", files := ["a.tar"] }] "a.tar" = some "/staging/a.tar" ∧
    some "/staging/a.tar" ≠ some "/release/a.tar" := by
  decide

/-- Claim C5, counterexample: endpoints are declared in the order 1, 2 and
both report zero running containers, but the poll of endpoint 2 completes
first; the scheduler picks endpoint 2 (first in completion order), not
endpoint 1 as the declaration-order tie-break of the claim requires. -/
theorem C5_tie_break_counterexample :
    select_free_endpoint_round [Except.ok (0, 2), Except.ok (0, 1)] =
      RoundOutcome.selected (0, 2) ∧
    select_free_endpoint_round [Except.ok (0, 2), Except.ok (0, 1)] ≠
      RoundOutcome.selected (0, 1) := by
  decide

/-- Claim C5, amended: when every endpoint reports a load, the scheduler picks
an endpoint whose running-container count is minimal among all reported
counts, and among equal minimal counts the one whose report completed first is
picked (poll completion order, not declaration order). -/
theorem C5_least_loaded_selection :
    ∀ loads : List (Nat × Nat), loads ≠ [] →
      ∃ p pre post,
        select_free_endpoint_round (loads.map Except.ok) = RoundOutcome.selected p ∧
        loads = pre ++ p :: post ∧
        (∀ q ∈ loads, p.1 ≤ q.1) ∧
        (∀ q ∈ pre, p.1 < q.1) := by
  intro loads hne
  have hc := collect_results_map_ok loads
  obtain ⟨p, hp⟩ : ∃ p, (loads.insertionSort load_le).head? = some p := by
    cases hs : loads.insertionSort load_le with
    | nil =>
      exfalso
      have := (List.perm_insertionSort load_le loads).length_eq
      rw [hs] at this
      cases loads with
      | nil => exact hne rfl
      | cons a l => simp at this
    | cons a l => exact ⟨a, rfl⟩
  obtain ⟨pre, post, hsplit, hmin, hpre⟩ := head_insertionSort_first_min loads p hp
  refine ⟨p, pre, post, ?_, hsplit, hmin, hpre⟩
  simp [select_free_endpoint_round, hc, select_from_reports, hp]

/-- Claim C5, witness: scenario S6, endpoints 1 and 2 report loads 3 and 1;
the selection picks an endpoint with the minimal load 1. -/
theorem C5_least_loaded_selection_witness :
    ∃ p pre post,
      select_free_endpoint_round ([(3, 1), (1, 2)].map Except.ok) =
        RoundOutcome.selected p ∧
      ([(3, 1), (1, 2)] : List (Nat × Nat)) = pre ++ p :: post ∧
      (∀ q ∈ ([(3, 1), (1, 2)] : List (Nat × Nat)), p.1 ≤ q.1) ∧
      (∀ q ∈ pre, p.1 < q.1) :=
  C5_least_loaded_selection [(3, 1), (1, 2)] (by decide)

/-- Claim C6, counterexample: with a single endpoint whose load poll fails,
the selection round returns the poll error from scheduling instead of
retrying. -/
theorem C6_all_fail_counterexample :
    select_free_endpoint_round [Except.error "ping failed"] =
      RoundOutcome.fatal "ping failed" ∧
    select_free_endpoint_round [Except.error "ping failed"] ≠ RoundOutcome.retry := by
  decide

/-- Claim C6, amended: when any load poll fails, select_free_endpoint
propagates the first completed failure as an error from scheduling (in
particular when every endpoint fails); a new selection round is only started
when the endpoint list is empty, and no backoff is performed. -/
theorem C6_poll_failure_is_fatal :
    (∀ (e : String) (rest : List (Except String (Nat × Nat))),
      select_free_endpoint_round (Except.error e :: rest) = RoundOutcome.fatal e) ∧
    (∀ reports : List (Except String (Nat × Nat)),
      select_free_endpoint_round reports = RoundOutcome.retry ↔ reports = []) ∧
    (∀ reports : List (Except String (Nat × Nat)), reports ≠ [] →
      (∀ r ∈ reports, ∃ e, r = Except.error e) →
      ∃ e, select_free_endpoint_round reports = RoundOutcome.fatal e) := by
  refine ⟨select_round_error_head, ?_, ?_⟩
  · intro reports
    constructor
    · intro h
      cases reports with
      | nil => rfl
      | cons r rest =>
        cases r with
        | error e =>
          rw [select_round_error_head] at h
          simp at h
        | ok a =>
          cases hr : collect_results rest with
          | error e =>
            have hx : select_free_endpoint_round (Except.ok a :: rest) =
                RoundOutcome.fatal e := by
              simp [select_free_endpoint_round, collect_results, hr, Except.map]
            rw [hx] at h
            simp at h
          | ok loads =>
            obtain ⟨p, hp⟩ := select_from_reports_cons_some a loads
            have hx : select_free_endpoint_round (Except.ok a :: rest) =
                RoundOutcome.selected p := by
              simp [select_free_endpoint_round, collect_results, hr, Except.map, hp]
            rw [hx] at h
            simp at h
    · intro h
      rw [h]
      rfl
  · intro reports hne hall
    cases reports with
    | nil => exact absurd rfl hne
    | cons r rest =>
      obtain ⟨e, rfl⟩ := hall r (List.mem_cons_self r rest)
      exact ⟨e, select_round_error_head e rest⟩

/-- Claim C6, witness: the amended theorem applied to the empty endpoint list
(retry) and to a round in which every endpoint fails (first error returned). -/
theorem C6_poll_failure_is_fatal_witness :
    select_free_endpoint_round ([] : List (Except String (Nat × Nat))) =
      RoundOutcome.retry ∧
    select_free_endpoint_round [Except.error "E", Except.error "F"] =
      RoundOutcome.fatal "E" :=
  ⟨(C6_poll_failure_is_fatal.2.1 []).mpr rfl,
   C6_poll_failure_is_fatal.1 "E" [Except.error "F"]⟩

/-- Claim C7, counterexample: when the container run fails but the log
receiver succeeded, JobHandle::run propagates the error with the question mark
operator before reaching the Job insert, so no Job row is written and the
accumulated log text is dropped rather than persisted to the ledger. -/
theorem C7_log_dropped_counterexample :
    job_handle_run (Except.ok "line1") (Except.error "container failed") =
      (Except.error "container failed", none) := by
  decide

/-- Claim C7, amended: the accumulated log is persisted to the Job row exactly
when both the log collection and the container run succeed; on either failure
path the error is returned and no Job row (hence no log) is written. -/
theorem C7_log_persisted_iff_success :
    (∀ (log : String) (paths : List String) (hash script : String),
      job_handle_run (Except.ok log) (Except.ok (paths, hash, script)) =
        (Except.ok paths, some { log := log, container_hash := hash, script := script })) ∧
    (∀ (e : String) (res : Except String (List String × String × String)),
      job_handle_run (Except.error e) res = (Except.error e, none)) ∧
    (∀ log e : String, job_handle_run (Except.ok log) (Except.error e) =
      (Except.error e, none)) :=
  ⟨fun _ _ _ _ => rfl, fun _ _ => rfl, fun _ _ => rfl⟩

/-- Claim C8: for every finite sequence of log items, the string returned by
the log receiver is the newline-join of the rendered items in arrival order,
and the log file content is the rendered items each followed by a trailing
newline. -/
theorem C8_log_round_trip :
    ∀ (disp : LogItem → String) (items : List LogItem),
      (log_receiver_join disp items).1 = String.intercalate "\n" (items.map disp) ∧
      (log_receiver_join disp items).2.1 =
        concat_chunks (items.map fun i => disp i ++ "\n") := by
  intro disp items
  have h := log_receiver_loop_spec disp items [] [] none
  constructor
  · simp [log_receiver_join, h.1]
  · simp only [log_receiver_join, h.2, List.nil_append]
    exact concat_chunks_flatMap disp items

/-- Claim C9: the log receiver does open the log file in exclusive-create
mode, but the path it opens is log_dir slash uuid slash .log (PathBuf::join
with the component .log adds a path segment), not the claimed and documented
log_dir slash uuid.log. -/
theorem C9_logfile_path_wrong :
    logfile_path "/logs" "123e4567-e89b-12d3-a456-426614174000" =
      "/logs/123e4567-e89b-12d3-a456-426614174000/.log" ∧
    "/logs/123e4567-e89b-12d3-a456-426614174000/.log" ≠
      "/logs/123e4567-e89b-12d3-a456-426614174000.log" ∧
    logfile_open_options = { create := true, create_new := true, write := true } := by
  refine ⟨rfl, by decide, rfl⟩

/-- Claim C10: verify_hash propagates the open failure of an absent source
file as an error rather than Ok false, and Ok false is returned exactly when
the file is present and readable but its digest differs from the declared
hash. -/
theorem C10_verify_hash_missing_file :
    ∀ (fs : String → Option (List Nat)) (digest : List Nat → String)
      (declared path : String),
      (fs path = none → ∃ e, verify_hash fs digest declared path = Except.error e) ∧
      (verify_hash fs digest declared path = Except.ok false ↔
        ∃ buf, fs path = some buf ∧ digest buf ≠ declared) := by
  intro fs digest declared path
  constructor
  · intro h
    exact ⟨"could not open " ++ path, by simp [verify_hash, h]⟩
  · cases hf : fs path with
    | none => simp [verify_hash, hf]
    | some buf => simp [verify_hash, hf, matches_hash_of]

/-- Claim C10, witness: a missing file yields an error, a present file with a
differing digest yields Ok false. -/
theorem C10_verify_hash_missing_file_witness :
    (∃ e, verify_hash (fun _ => none) (fun _ => "d") "h" "pkg-1.0.source" =
      Except.error e) ∧
    verify_hash (fun _ => some [1]) (fun _ => "d") "h" "pkg-1.0.source" =
      Except.ok false :=
  ⟨(C10_verify_hash_missing_file (fun _ => none) (fun _ => "d") "h" "pkg-1.0.source").1 rfl,
   (C10_verify_hash_missing_file (fun _ => some [1]) (fun _ => "d") "h"
      "pkg-1.0.source").2.mpr ⟨[1], rfl, by decide⟩⟩

end Butido
